import Mathlib

/-!
Shallow embedding of the `cgi` crate (george-hopkins/rust-cgi): the CGI
request parser `parse_request`, the response serializer
`serialize_response`, the body reader of `handle`, the response
constructors, and the error-wrapping entry point generated by the
`#[cgi::main]` attribute.

Modelling conventions:
* Environment variables (`HashMap<String, String>`) become an association
  list `List (String × String)`; `get` is first-match lookup and iteration
  is list order (the `HashMap` iteration order is arbitrary, and nothing
  proved in this file depends on it).
* Byte vectors (`Vec<u8>`) become `List Nat`; a Rust `String` becomes a
  Lean `String`, and `into_bytes()` is UTF-8 encoding via
  `String.utf8EncodeChar`.
* Panics (`unwrap`, `expect`, indexing a missing key, `unimplemented!`)
  become `none` of an `Option` result.
* `http::HeaderName` stores its text lowercased (the crate normalizes
  names on insertion, and header-name identity is case-insensitive), so
  header names are lowercased when inserted.  `http::HeaderValue` parsing
  fails on bytes below 0x20 (except TAB) and on 0x7F; that check is
  modelled by `validValue`.  Method and header-name token validity
  (`validToken`) is the RFC 7230 `tchar` class both parsers enforce.
* `http::Uri::from_str` is modelled by `parseUri`: the empty string is
  an error, exactly `*` is the asterisk form, a leading `/` is
  origin-form (path up to the first `?`, then the query, with any `#`
  fragment truncated away, each byte checked against the component's
  accepted class), and anything else must be a bare authority, giving an
  empty path and no query.  The model is conservative where `http` 0.2
  patch releases differ (a few percent-encoding-lenient bytes; userinfo,
  IPv6-bracket and multi-colon authorities): it maps those to `none`, so
  it never reports a success the crate would turn into a panic.
* The builder defers method/URI/header errors to `.body().unwrap()`;
  the model performs these checks before producing the request, which is
  observationally the same since only the final `Option` is visible.
-/

namespace Cgi

/-- The bytes of a string under UTF-8 encoding (Rust `String::into_bytes`). -/
def strBytes (s : String) : List Nat :=
  s.data.flatMap (fun c => (String.utf8EncodeChar c).map UInt8.toNat)

/-- Rust `str::trim` on the character list (whitespace stripped from both ends). -/
def trimChars (l : List Char) : List Char :=
  ((l.dropWhile Char.isWhitespace).reverse.dropWhile Char.isWhitespace).reverse

/-- Rust `str::trim`, producing a `String`. -/
def strTrim (s : String) : String := ⟨trimChars s.data⟩

/-- `http::HeaderValue::from_str` accepts a string iff every byte is
visible (≥ 0x20, ≠ 0x7F) or TAB; bytes ≥ 0x80 of multi-byte characters
are accepted, so the check is per character. -/
def validValue (s : String) : Bool :=
  s.data.all (fun c => (32 ≤ c.toNat && c.toNat != 127) || c.toNat == 9)

/-- `HashMap::get`: first value stored under the key. -/
def getVar (env : List (String × String)) (k : String) : Option String :=
  (env.find? (fun p => p.1 == k)).map Prod.snd

/-- ASCII lowercasing of a string, character by character: the
normalization `http::HeaderName` applies to the text it stores. -/
def lowerStr (s : String) : String := ⟨s.data.map Char.toLower⟩

/-- `str::starts_with`: `pre` is a prefix of `s`. -/
def strStarts (s pre : String) : Bool := pre.data.isPrefixOf s.data

/-- `http::Version`, restricted to the variants `parse_request` can produce. -/
inductive Version where
  | http09
  | http10
  | http11
  | http2
deriving DecidableEq, Repr

/-- A parsed `http::Uri` as observed through the two accessors the crate
and its tests use: `path()` and `query()` (the fragment, if any, was
truncated away by the parser and is not retained). -/
structure UriParts where
  path : String
  query : Option String
deriving DecidableEq, Repr

/-- `http::Request<Vec<u8>>` as observed through the accessors the crate
and its tests use: method, parsed URI, version, header map (insertion
order, names lowercased, duplicates kept), the `PathInfo` extension,
body. -/
structure Request where
  method : String
  uri : UriParts
  version : Version
  headers : List (String × String)
  pathInfo : Option String
  body : List Nat
deriving DecidableEq, Repr

/-- `http::Response<Vec<u8>>`: status code, header map, body bytes. -/
structure Response where
  status : Nat
  headers : List (String × String)
  body : List Nat
deriving DecidableEq, Repr

/-- HTTP token characters (RFC 7230 `tchar`): digits, letters of both
cases, and `!#$%&'*+-.^_` backquote `|~`.  This is the byte class
`http::Method` and `http::HeaderName` accept (`HeaderName` additionally
lowercases letters when storing). -/
def isTokenChar (c : Char) : Bool :=
  let n := c.toNat
  (48 ≤ n && n ≤ 57) || (65 ≤ n && n ≤ 90) || (97 ≤ n && n ≤ 122) ||
  n == 33 || (35 ≤ n && n ≤ 39) || n == 42 || n == 43 || n == 45 ||
  n == 46 || n == 94 || n == 95 || n == 96 || n == 124 || n == 126

/-- A valid HTTP token: non-empty and made of token characters.  Models
`Method::from_bytes` on extension methods (standard methods such as GET
are themselves tokens) and `HeaderName::from_bytes` modulo lowercasing. -/
def validToken (s : String) : Bool :=
  !s.data.isEmpty && s.data.all isTokenChar

/-- Bytes accepted in the path component by the `http` crate's
`PathAndQuery` parser without percent-encoding: `0x21`, `0x24-0x3B`,
`0x3D`, `0x40-0x5F`, `0x61-0x7A`, `0x7C`, `0x7E`.  (`?` and `#` are the
component separators; the handful of extra percent-encoding-lenient
bytes some `http` 0.2 patch releases additionally tolerate is not
included, so this model accepts a subset of what the crate accepts and
never reports success where the crate errors.) -/
def validPathChar (c : Char) : Bool :=
  let n := c.toNat
  n == 33 || (36 ≤ n && n ≤ 59) || n == 61 || (64 ≤ n && n ≤ 95) ||
  (97 ≤ n && n ≤ 122) || n == 124 || n == 126

/-- Bytes accepted in the query component: `0x21`, `0x24-0x3B`, `0x3D`,
`0x3F-0x7E` (so `?` may recur inside the query); `#` ends the query by
starting the fragment.  Same conservative-subset caveat as
`validPathChar`. -/
def validQueryChar (c : Char) : Bool :=
  let n := c.toNat
  n == 33 || (36 ≤ n && n ≤ 59) || n == 61 || (63 ≤ n && n ≤ 126)

/-- The query phase of `PathAndQuery` parsing: collect bytes until the
end or a `#` (which truncates the fragment away); an invalid byte fails
the whole parse. -/
def scanQuery : List Char → Option (List Char)
  | [] => some []
  | c :: cs =>
    if c = '#' then some []
    else if validQueryChar c then (scanQuery cs).map (fun q => c :: q)
    else none

/-- The path phase of `PathAndQuery` parsing: collect path bytes; a `?`
switches to the query phase, a `#` truncates (no query), an invalid
byte fails the parse. -/
def scanPath : List Char → Option (List Char × Option (List Char))
  | [] => some ([], none)
  | c :: cs =>
    if c = '?' then (scanQuery cs).map (fun q => ([], some q))
    else if c = '#' then some ([], none)
    else if validPathChar c then (scanPath cs).map (fun pr => (c :: pr.1, pr.2))
    else none

/-- Bytes the `http` crate's `Authority` parser accepts: `0x21`,
`0x24-0x3B`, `0x3D`, `0x40-0x5F`, `0x61-0x7A`, `0x7C`, `0x7E`. -/
def validAuthorityChar (c : Char) : Bool :=
  let n := c.toNat
  n == 33 || (36 ≤ n && n ≤ 59) || n == 61 || (64 ≤ n && n ≤ 95) ||
  (97 ≤ n && n ≤ 122) || n == 124 || n == 126

/-- `Uri` parsing of a string that does not begin with `/` and is not
exactly `*`: with no scheme present (impossible without a `/`, since a
scheme needs `://`) the whole string must be one valid authority, and
the resulting URI has empty path and no query.  A `/`, `?` or `#` would
end the authority early, which the crate rejects as an invalid format
when anything follows.  Userinfo (`@`), IPv6 brackets and multi-colon
forms are conservatively mapped to `none` (the crate accepts some of
them, still with empty path and no query). -/
def authorityForm (l : List Char) : Option UriParts :=
  if l.all validAuthorityChar = true ∧ '/' ∉ l ∧ '?' ∉ l ∧ '#' ∉ l ∧
     '@' ∉ l ∧ '[' ∉ l ∧ ']' ∉ l ∧ l.count ':' ≤ 1
  then some ⟨"", none⟩ else none

/-- `http::Uri::from_str`, restricted to the accessors this crate uses:
the empty string is an error; exactly `*` is the asterisk form (path
`*`); a string beginning with `/` is origin-form, split into path and
query with the fragment truncated; anything else must parse as a bare
authority, yielding an empty path and no query. -/
def parseUri (l : List Char) : Option UriParts :=
  match l with
  | [] => none
  | c :: cs =>
    if c = '/' then
      (scanPath (c :: cs)).map
        (fun pr => ⟨⟨pr.1⟩, pr.2.map (fun q => (⟨q⟩ : String))⟩)
    else if c = '*' ∧ cs = [] then some ⟨"*", none⟩
    else authorityForm (c :: cs)

/-- `request.uri().path()`. -/
def reqPath (r : Request) : String := r.uri.path

/-- `request.uri().query()`. -/
def reqQuery (r : Request) : Option String := r.uri.query

/-- The header name derived from an `HTTP_*` meta-variable:
`key.chars().skip(5)` with `_` mapped to `-` (src/lib.rs line 245). -/
def stripReplace (k : String) : String :=
  ⟨(k.data.drop 5).map (fun c => if c = '_' then '-' else c)⟩

/-- The `SERVER_PROTOCOL` mapping of `parse_request`
(src/lib.rs lines 231-241); `none` is the `unimplemented!` arm. -/
def protocolVersion (v : String) : Option Version :=
  if v = "HTTP/0.9" then some .http09
  else if v = "HTTP/1.0" then some .http10
  else if v = "HTTP/1.1" then some .http11
  else if v = "HTTP/2.0" then some .http2
  else none

/-- The protocol values `parse_request` supports. -/
def supportedProtocols : List String :=
  ["HTTP/0.9", "HTTP/1.0", "HTTP/1.1", "HTTP/2.0"]

/-- The version carried by the built request: the builder's default
`HTTP/1.1` when `SERVER_PROTOCOL` is absent, else the mapping table. -/
def requestVersion (env : List (String × String)) : Option Version :=
  match getVar env "SERVER_PROTOCOL" with
  | none => some Version.http11
  | some v => protocolVersion v

/-- The request URI string built by `parse_request` (lines 222-227):
`SCRIPT_NAME ++ PATH_INFO`, with `?QUERY_STRING` appended when the query
string is non-empty. -/
def requestUri (scriptName pathInfo queryString : String) : String :=
  scriptName ++ pathInfo ++ (if queryString = "" then "" else "?" ++ queryString)

/-- The headers contributed by the `HTTP_*` loop (lines 244-247): name
stripped and hyphenated (then lowercased by `HeaderName`), value trimmed. -/
def httpHeaders (env : List (String × String)) : List (String × String) :=
  (env.filter (fun p => strStarts p.1 "HTTP_")).map
    (fun p => (lowerStr (stripReplace p.1), strTrim p.2))

/-- `add_header` (src/lib.rs lines 277-283): append the meta-variable's
verbatim value under the target name when the variable is present. -/
def add_header (hs : List (String × String)) (env : List (String × String))
    (metaVar targetHeader : String) : List (String × String) :=
  match getVar env metaVar with
  | some v => hs ++ [(lowerStr targetHeader, v)]
  | none => hs

/-- The meta-variable / diagnostic-header pairs of the `add_header` calls
in `parse_request` (src/lib.rs lines 250-265), in source order. -/
def metaVarTable : List (String × String) :=
  [("AUTH_TYPE", "X-CGI-Auth-Type"),
   ("CONTENT_LENGTH", "X-CGI-Content-Length"),
   ("CONTENT_TYPE", "X-CGI-Content-Type"),
   ("GATEWAY_INTERFACE", "X-CGI-Gateway-Interface"),
   ("PATH_INFO", "X-CGI-Path-Info"),
   ("PATH_TRANSLATED", "X-CGI-Path-Translated"),
   ("QUERY_STRING", "X-CGI-Query-String"),
   ("REMOTE_ADDR", "X-CGI-Remote-Addr"),
   ("REMOTE_HOST", "X-CGI-Remote-Host"),
   ("REMOTE_IDENT", "X-CGI-Remote-Ident"),
   ("REMOTE_USER", "X-CGI-Remote-User"),
   ("REQUEST_METHOD", "X-CGI-Request-Method"),
   ("SCRIPT_NAME", "X-CGI-Script-Name"),
   ("SERVER_PORT", "X-CGI-Server-Port"),
   ("SERVER_PROTOCOL", "X-CGI-Server-Protocol"),
   ("SERVER_SOFTWARE", "X-CGI-Server-Software")]

/-- All headers of the built request: the `HTTP_*` loop followed by the
sixteen `add_header` calls. -/
def requestHeaders (env : List (String × String)) : List (String × String) :=
  metaVarTable.foldl (fun hs q => add_header hs env q.1 q.2) (httpHeaders env)

/-- `parse_request` (src/lib.rs lines 217-274).  `none` models a panic:
`expect` on a missing `REQUEST_METHOD`, indexing `env_vars["SCRIPT_NAME"]`
when absent, `unimplemented!` on an unsupported `SERVER_PROTOCOL` (which
fires eagerly, before any builder error can surface), and the deferred
builder errors that the final `.body(stdin).unwrap()` surfaces: an
invalid method token, a URI string `Uri::from_str` rejects, an invalid
header name derived from an `HTTP_*` variable, or a non-representable
header value. -/
def parse_request (env : List (String × String)) (stdin : List Nat) :
    Option Request :=
  match getVar env "REQUEST_METHOD" with
  | none => none
  | some method =>
    match getVar env "SCRIPT_NAME" with
    | none => none
    | some scriptName =>
      match requestVersion env with
      | none => none
      | some version =>
        let headers := requestHeaders env
        match parseUri (requestUri scriptName
            ((getVar env "PATH_INFO").getD "")
            ((getVar env "QUERY_STRING").getD "")).data with
        | none => none
        | some uri =>
          if validToken method &&
             headers.all (fun p => validToken p.1 && validValue p.2) then
            some { method := method,
                   uri := uri,
                   version := version,
                   headers := headers,
                   pathInfo := getVar env "PATH_INFO",
                   body := stdin }
          else none

/-- `http::StatusCode::canonical_reason`: the canonical reason phrase for
a status code, when one exists (modelled from the `http` crate's table). -/
def canonicalReason (code : Nat) : Option String :=
  match code with
  | 100 => some "Continue"
  | 101 => some "Switching Protocols"
  | 102 => some "Processing"
  | 200 => some "OK"
  | 201 => some "Created"
  | 202 => some "Accepted"
  | 203 => some "Non Authoritative Information"
  | 204 => some "No Content"
  | 205 => some "Reset Content"
  | 206 => some "Partial Content"
  | 207 => some "Multi-Status"
  | 208 => some "Already Reported"
  | 226 => some "IM Used"
  | 300 => some "Multiple Choices"
  | 301 => some "Moved Permanently"
  | 302 => some "Found"
  | 303 => some "See Other"
  | 304 => some "Not Modified"
  | 305 => some "Use Proxy"
  | 307 => some "Temporary Redirect"
  | 308 => some "Permanent Redirect"
  | 400 => some "Bad Request"
  | 401 => some "Unauthorized"
  | 402 => some "Payment Required"
  | 403 => some "Forbidden"
  | 404 => some "Not Found"
  | 405 => some "Method Not Allowed"
  | 406 => some "Not Acceptable"
  | 407 => some "Proxy Authentication Required"
  | 408 => some "Request Timeout"
  | 409 => some "Conflict"
  | 410 => some "Gone"
  | 411 => some "Length Required"
  | 412 => some "Precondition Failed"
  | 413 => some "Payload Too Large"
  | 414 => some "URI Too Long"
  | 415 => some "Unsupported Media Type"
  | 416 => some "Range Not Satisfiable"
  | 417 => some "Expectation Failed"
  | 418 => some "I\x27m a teapot"
  | 421 => some "Misdirected Request"
  | 422 => some "Unprocessable Entity"
  | 423 => some "Locked"
  | 424 => some "Failed Dependency"
  | 426 => some "Upgrade Required"
  | 428 => some "Precondition Required"
  | 429 => some "Too Many Requests"
  | 431 => some "Request Header Fields Too Large"
  | 451 => some "Unavailable For Legal Reasons"
  | 500 => some "Internal Server Error"
  | 501 => some "Not Implemented"
  | 502 => some "Bad Gateway"
  | 503 => some "Service Unavailable"
  | 504 => some "Gateway Timeout"
  | 505 => some "HTTP Version Not Supported"
  | 506 => some "Variant Also Negotiates"
  | 507 => some "Insufficient Storage"
  | 508 => some "Loop Detected"
  | 510 => some "Not Extended"
  | 511 => some "Network Authentication Required"
  | _ => none

/-- The distinct header names of a header list, first-occurrence order:
`HeaderMap::keys()`. -/
def dedupKeys : List String → List String
  | [] => []
  | k :: rest => k :: (dedupKeys rest).filter (fun x => x ≠ k)

/-- `HeaderMap::get` followed by `to_str`: the first value stored under
the name (`""` is never reached when the name is a key of the map). -/
def headerGet (hs : List (String × String)) (k : String) : String :=
  ((hs.find? (fun p => p.1 == k)).map Prod.snd).getD ""

/-- The status line of the serialized output (src/lib.rs lines 288-294):
`Status: <code>[ <reason>]\n`. -/
def statusLine (r : Response) : String :=
  "Status: " ++ toString r.status ++
    (match canonicalReason r.status with
     | some reason => " " ++ reason
     | none => "") ++ "\n"

/-- The header names sorted by `sort_by_key(|h| h.as_str())`
(src/lib.rs lines 298-299).  `HeaderName::as_str` is the lowercased name,
which is the stored text in this model. -/
def sortedHeaderNames (r : Response) : List String :=
  List.insertionSort (fun a b : String => a ≤ b)
    (dedupKeys (r.headers.map Prod.fst))

/-- `serialize_response` (src/lib.rs lines 286-317): build the status
line, append one `<name>: <first value>\n` line per sorted header name,
append a blank line, then the body bytes. -/
def serialize_response (r : Response) : List Nat :=
  let output := statusLine r
  let output := (sortedHeaderNames r).foldl
    (fun acc k => acc ++ k ++ ": " ++ headerGet r.headers k ++ "\n") output
  let output := output ++ "\n"
  strBytes output ++ r.body

/-- `empty_response` (src/lib.rs lines 117-122); `none` models the
`unwrap` panic on a status code `StatusCode::try_from` rejects. -/
def empty_response (code : Nat) : Option Response :=
  if 100 ≤ code ∧ code ≤ 999 then some ⟨code, [], []⟩ else none

/-- `html_response` (src/lib.rs lines 126-138): UTF-8 body,
`Content-Type` then `Content-Length`. -/
def html_response (code : Nat) (body : String) : Option Response :=
  if 100 ≤ code ∧ code ≤ 999 then
    some ⟨code,
          [("content-type", "text/html; charset=utf-8"),
           ("content-length", toString (strBytes body).length)],
          strBytes body⟩
  else none

/-- `string_response` (src/lib.rs lines 141-152): UTF-8 body,
`Content-Length` only. -/
def string_response (code : Nat) (body : String) : Option Response :=
  if 100 ≤ code ∧ code ≤ 999 then
    some ⟨code,
          [("content-length", toString (strBytes body).length)],
          strBytes body⟩
  else none

/-- `text_response` (src/lib.rs lines 164-176): UTF-8 body,
`Content-Length` then `Content-Type`. -/
def text_response (code : Nat) (body : String) : Option Response :=
  if 100 ≤ code ∧ code ≤ 999 then
    some ⟨code,
          [("content-length", toString (strBytes body).length),
           ("content-type", "text/plain; charset=utf-8")],
          strBytes body⟩
  else none

/-- `binary_response` (src/lib.rs lines 199-214): `Content-Length`
always, `Content-Type` exactly when a content type is supplied. -/
def binary_response (code : Nat) (contentType : Option String)
    (body : List Nat) : Option Response :=
  if 100 ≤ code ∧ code ≤ 999 then
    some ⟨code,
          ("content-length", toString body.length) ::
            (match contentType with
             | some ct => [("content-type", ct)]
             | none => []),
          body⟩
  else none

/-- Rust `usize::from_str`: optional leading `+`, at least one decimal
digit, value below 2^64 (64-bit `usize`). -/
def parseUsize (s : String) : Option Nat :=
  let ds := match s.data with
            | '+' :: rest => rest
            | l => l
  if ds.isEmpty then none
  else if ds.all Char.isDigit then
    let n := ds.foldl (fun acc c => acc * 10 + (c.toNat - 48)) 0
    if n < 2 ^ 64 then some n else none
  else none

/-- The body length computed by `handle` (src/lib.rs lines 93-94):
`CONTENT_LENGTH` parsed as `usize`, defaulting to 0 when absent or
unparseable. -/
def content_length (env : List (String × String)) : Nat :=
  ((getVar env "CONTENT_LENGTH").bind parseUsize).getD 0

/-- `Read::read_exact` on a buffer of length `n` (src/lib.rs lines
96-97): exactly the first `n` bytes of the stream, or `none` (the
`unwrap` panic on `UnexpectedEof`) when the stream is shorter. -/
def read_exact (stdin : List Nat) (n : Nat) : Option (List Nat) :=
  if n ≤ stdin.length then some (stdin.take n) else none

/-- The body-reading prefix of `handle` (src/lib.rs lines 92-97). -/
def read_body (env : List (String × String)) (stdin : List Nat) :
    Option (List Nat) :=
  read_exact stdin (content_length env)

/-- `handle` (src/lib.rs lines 86-106): read the body, build the
request, run the handler, serialize; `none` is a panic on the way.  The
returned bytes are what is written to stdout. -/
def handle (func : Request → Response) (env : List (String × String))
    (stdin : List Nat) : Option (List Nat) :=
  (read_body env stdin).bind (fun body =>
    (parse_request env body).map (fun r => serialize_response (func r)))

/-- The 500 response `empty_response(500)` evaluates to. -/
def response500 : Response := ⟨500, [], []⟩

/-- `err_to_500` (src/lib.rs lines 111-113):
`res.unwrap_or(empty_response(500))`. -/
def err_to_500 {E : Type} (res : Except E Response) : Response :=
  match res with
  | .ok r => r
  | .error _ => response500

/-- The closure generated by `#[cgi::main]` for a `Result`-returning
handler (macro/src/lib.rs lines 53-64): `Ok` passes through, `Err` is
logged (second component models the `eprintln!` to stderr) and replaced
by `empty_response(500)`. -/
def wrap_result {E : Type} (inner : Request → Except E Response)
    (r : Request) : Response × Option E :=
  match inner r with
  | .ok resp => (resp, none)
  | .error e => (response500, some e)

/-! Spec-side serializer, following the spec's own words: status line,
header lines for the names sorted by their lowercase form, blank line,
body, with no synthesized header. -/

/-- Concatenation of a list of emitted lines. -/
def concatLines : List String → String
  | [] => ""
  | s :: rest => s ++ concatLines rest

/-- Comparison of header names by their lowercase form (the spec's
"sort them lexicographically by their lowercase form"). -/
def lowerLe (a b : String) : Prop := lowerStr a ≤ lowerStr b

instance : DecidableRel lowerLe :=
  fun a b => inferInstanceAs (Decidable (lowerStr a ≤ lowerStr b))

/-- The header names as the spec orders them: distinct names sorted
lexicographically by lowercase form. -/
def specSortedNames (r : Response) : List String :=
  List.insertionSort lowerLe (dedupKeys (r.headers.map Prod.fst))

/-- The spec's header block: one `<name>: <value>` line per name. -/
def headerBlock (r : Response) : String :=
  concatLines ((specSortedNames r).map
    (fun k => k ++ ": " ++ headerGet r.headers k ++ "\n"))

/-- The serialized output as the spec describes it: status line, sorted
header lines, a single blank line, then the body bytes verbatim. -/
def serializeSpec (r : Response) : List Nat :=
  strBytes (statusLine r) ++ strBytes (headerBlock r) ++ strBytes "\n" ++ r.body

/-- The diagnostic headers contributed by the sixteen `add_header` calls,
as a flat list: one `X-CGI-*` entry (name lowercased by `HeaderName`)
with the verbatim value for each meta-variable of the table present in
the environment. -/
def xcgiList (env : List (String × String)) : List (String × String) :=
  metaVarTable.filterMap
    (fun q => (getVar env q.1).map (fun v => (lowerStr q.2, v)))

/-- The headers kept when every name retains only its first value. -/
def firstPerName : List (String × String) → List (String × String)
  | [] => []
  | p :: rest => p :: firstPerName (rest.filter (fun q => q.1 ≠ p.1))
termination_by l => l.length
decreasing_by
  simp only [List.length_cons]
  exact Nat.lt_succ_of_le (List.length_filter_le _ _)


/-- The environment of the repository's `test_parse_request` test. -/
def exEnv : List (String × String) :=
  [("REQUEST_METHOD", "GET"),
   ("SCRIPT_NAME", "/my/path/script"),
   ("PATH_INFO", "/my/path/info"),
   ("SERVER_PROTOCOL", "HTTP/1.0"),
   ("HTTP_USER_AGENT", "MyBrowser/1.0"),
   ("QUERY_STRING", "foo=bar&baz=bop")]

/-- The request `parse_request` builds from `exEnv`. -/
def exReq : Request :=
  { method := "GET",
    uri := ⟨"/my/path/script/my/path/info", some "foo=bar&baz=bop"⟩,
    version := .http10,
    headers := [("user-agent", "MyBrowser/1.0"),
                ("x-cgi-path-info", "/my/path/info"),
                ("x-cgi-query-string", "foo=bar&baz=bop"),
                ("x-cgi-request-method", "GET"),
                ("x-cgi-script-name", "/my/path/script"),
                ("x-cgi-server-protocol", "HTTP/1.0")],
    pathInfo := some "/my/path/info",
    body := [] }

/-- An environment whose SCRIPT_NAME itself contains a question mark, so
the URI parser splits inside it. -/
def c1Env : List (String × String) :=
  [("REQUEST_METHOD", "GET"), ("SCRIPT_NAME", "/a?b"), ("PATH_INFO", ""),
   ("QUERY_STRING", ""), ("SERVER_PROTOCOL", "HTTP/1.1")]

/-- An environment whose SCRIPT_NAME does not begin with a slash: the
URI parses as authority-form, with an empty path. -/
def c1AuthEnv : List (String × String) :=
  [("REQUEST_METHOD", "GET"), ("SCRIPT_NAME", "foo"), ("PATH_INFO", ""),
   ("QUERY_STRING", ""), ("SERVER_PROTOCOL", "HTTP/1.1")]

/-- An environment whose QUERY_STRING contains a hash: the URI parser
truncates the fragment away. -/
def c1FragEnv : List (String × String) :=
  [("REQUEST_METHOD", "GET"), ("SCRIPT_NAME", "/s"), ("PATH_INFO", ""),
   ("QUERY_STRING", "b#c"), ("SERVER_PROTOCOL", "HTTP/1.1")]

/-- An environment in which all sixteen diagnostic meta-variables are
present. -/
def c5Env : List (String × String) :=
  [("AUTH_TYPE", "basic"), ("CONTENT_LENGTH", "0"),
   ("CONTENT_TYPE", "text/plain"), ("GATEWAY_INTERFACE", "CGI/1.1"),
   ("PATH_INFO", "/p"), ("PATH_TRANSLATED", "/t"), ("QUERY_STRING", "q=1"),
   ("REMOTE_ADDR", "127.0.0.1"), ("REMOTE_HOST", "localhost"),
   ("REMOTE_IDENT", "id"), ("REMOTE_USER", "u"), ("REQUEST_METHOD", "GET"),
   ("SCRIPT_NAME", "/s"), ("SERVER_PORT", "80"),
   ("SERVER_PROTOCOL", "HTTP/1.1"), ("SERVER_SOFTWARE", "test")]

/-! Helper lemmas. -/

theorem strEta (s : String) : (⟨s.data⟩ : String) = s := rfl

theorem strBytes_append (a b : String) :
    strBytes (a ++ b) = strBytes a ++ strBytes b := by
  simp [strBytes, String.data_append]

theorem strAppend_empty (s : String) : s ++ "" = s := by
  cases s with
  | mk data => show String.mk (data ++ []) = String.mk data; simp

theorem trimChars_subset (l : List Char) : trimChars l ⊆ l := by
  intro c hc
  unfold trimChars at hc
  rw [List.mem_reverse] at hc
  have h1 := (List.dropWhile_sublist (l := (l.dropWhile Char.isWhitespace).reverse)
    (p := Char.isWhitespace)).subset hc
  rw [List.mem_reverse] at h1
  exact (List.dropWhile_sublist (l := l) (p := Char.isWhitespace)).subset h1

theorem validValue_trim {v : String} (h : validValue v = true) :
    validValue (strTrim v) = true := by
  rw [validValue, List.all_eq_true] at h ⊢
  intro c hc
  exact h c (trimChars_subset _ hc)

theorem getVar_value {env : List (String × String)} {k v : String}
    (h : getVar env k = some v) : ∃ p ∈ env, p.2 = v := by
  unfold getVar at h
  cases hf : env.find? (fun p => p.1 == k) with
  | none => rw [hf] at h; exact absurd h (by simp)
  | some p =>
    rw [hf] at h
    exact ⟨p, List.mem_of_find?_eq_some hf, by simpa using h⟩

theorem foldl_add_header (env : List (String × String)) :
    ∀ (table : List (String × String)) (base : List (String × String)),
      table.foldl (fun hs q => add_header hs env q.1 q.2) base =
        base ++ table.filterMap
          (fun q => (getVar env q.1).map (fun v => (lowerStr q.2, v))) := by
  intro table
  induction table with
  | nil => intro base; simp
  | cons q rest ih =>
    intro base
    rw [List.foldl_cons, ih, List.filterMap_cons]
    unfold add_header
    cases h : getVar env q.1 with
    | none => simp [h]
    | some v => simp [h]

theorem requestHeaders_eq (env : List (String × String)) :
    requestHeaders env = httpHeaders env ++ xcgiList env :=
  foldl_add_header env metaVarTable (httpHeaders env)

theorem parse_request_some {env : List (String × String)} {stdin : List Nat}
    {r : Request} (h : parse_request env stdin = some r) :
    ∃ m sn ver u, getVar env "REQUEST_METHOD" = some m ∧
      getVar env "SCRIPT_NAME" = some sn ∧
      requestVersion env = some ver ∧
      parseUri (requestUri sn ((getVar env "PATH_INFO").getD "")
        ((getVar env "QUERY_STRING").getD "")).data = some u ∧
      validToken m = true ∧
      (requestHeaders env).all
        (fun p => validToken p.1 && validValue p.2) = true ∧
      r = { method := m,
            uri := u,
            version := ver,
            headers := requestHeaders env,
            pathInfo := getVar env "PATH_INFO",
            body := stdin } := by
  unfold parse_request at h
  cases hm : getVar env "REQUEST_METHOD" with
  | none => rw [hm] at h; exact absurd h (by simp)
  | some m =>
    rw [hm] at h
    cases hsn : getVar env "SCRIPT_NAME" with
    | none => rw [hsn] at h; exact absurd h (by simp)
    | some sn =>
      rw [hsn] at h
      cases hv : requestVersion env with
      | none => rw [hv] at h; exact absurd h (by simp)
      | some ver =>
        rw [hv] at h
        simp only at h
        cases hu : parseUri (requestUri sn ((getVar env "PATH_INFO").getD "")
            ((getVar env "QUERY_STRING").getD "")).data with
        | none => rw [hu] at h; exact absurd h (by simp)
        | some u =>
          rw [hu] at h
          simp only at h
          cases hall : (validToken m &&
              (requestHeaders env).all
                (fun p => validToken p.1 && validValue p.2)) with
          | false =>
            rw [hall] at h
            exact absurd h (by simp)
          | true =>
            rw [hall] at h
            rw [if_pos rfl] at h
            obtain ⟨h1, h2⟩ := Bool.and_eq_true_iff.mp hall
            exact ⟨m, sn, ver, u, rfl, rfl, rfl, hu, h1, h2,
              (Option.some_inj.mp h).symm⟩

theorem dedupKeys_subset : ∀ l : List String, dedupKeys l ⊆ l := by
  intro l
  induction l with
  | nil => simp [dedupKeys]
  | cons k rest ih =>
    rw [dedupKeys]
    intro x hx
    cases List.mem_cons.mp hx with
    | inl h => exact h ▸ List.mem_cons_self k rest
    | inr h => exact List.mem_cons_of_mem k (ih ((List.filter_sublist _).subset h))

theorem dedupKeys_nodup : ∀ l : List String, (dedupKeys l).Nodup := by
  intro l
  induction l with
  | nil => simp [dedupKeys]
  | cons k rest ih =>
    rw [dedupKeys]
    refine List.Nodup.cons ?_ (List.Nodup.filter _ ih)
    intro hk
    have := List.of_mem_filter hk
    simp at this

theorem dedupKeys_of_nodup : ∀ l : List String, l.Nodup → dedupKeys l = l := by
  intro l
  induction l with
  | nil => intro _; rw [dedupKeys]
  | cons k rest ih =>
    intro hnd
    rw [dedupKeys, ih (List.nodup_cons.mp hnd).2]
    congr 1
    apply List.filter_eq_self.mpr
    intro a ha
    simp only [ne_eq, decide_eq_true_eq]
    intro hak
    exact (List.nodup_cons.mp hnd).1 (hak ▸ ha)

theorem dedupKeys_idem (l : List String) :
    dedupKeys (dedupKeys l) = dedupKeys l :=
  dedupKeys_of_nodup _ (dedupKeys_nodup l)

theorem dedupKeys_filter_comm (k : String) : ∀ l : List String,
    dedupKeys (l.filter (fun x => x ≠ k)) =
      (dedupKeys l).filter (fun x => x ≠ k) := by
  intro l
  induction l with
  | nil => rfl
  | cons a rest ih =>
    by_cases hak : a = k
    · subst hak
      rw [List.filter_cons, if_neg (by simp), ih, dedupKeys, List.filter_cons,
        if_neg (by simp), List.filter_filter]
      apply List.filter_congr
      intro x _
      simp
    · rw [List.filter_cons, if_pos (by simp [hak]), dedupKeys, dedupKeys,
        List.filter_cons, if_pos (by simp [hak]), ih, List.filter_filter,
        List.filter_filter]
      congr 1
      apply List.filter_congr
      intro x _
      simp [Bool.and_comm]

theorem dedupKeys_cons_filter (k : String) (rest : List String) :
    dedupKeys (k :: rest) = k :: dedupKeys (rest.filter (fun x => x ≠ k)) := by
  rw [dedupKeys, dedupKeys_filter_comm]

theorem scanQuery_clean {t : List Char} (h : '#' ∉ t) :
    ∀ {q : List Char}, scanQuery t = some q → q = t := by
  induction t with
  | nil =>
    intro q hq
    rw [scanQuery] at hq
    exact (Option.some_inj.mp hq).symm
  | cons c cs ih =>
    intro q hq
    rw [scanQuery] at hq
    have hc : ¬ c = '#' := fun he => h (he ▸ List.mem_cons_self c cs)
    rw [if_neg hc] at hq
    by_cases hv : validQueryChar c = true
    · rw [if_pos hv] at hq
      obtain ⟨q0, hq0, he⟩ := Option.map_eq_some'.mp hq
      rw [← he, ih (fun hm => h (List.mem_cons_of_mem c hm)) hq0]
    · rw [if_neg hv] at hq
      exact absurd hq (by simp)

theorem scanPath_no_query {p : List Char} (h1 : '?' ∉ p) (h2 : '#' ∉ p) :
    ∀ {pr}, scanPath p = some pr → pr = (p, none) := by
  induction p with
  | nil =>
    intro pr h
    rw [scanPath] at h
    exact (Option.some_inj.mp h).symm
  | cons c cs ih =>
    intro pr h
    rw [scanPath] at h
    have hc1 : ¬ c = '?' := fun he => h1 (he ▸ List.mem_cons_self c cs)
    have hc2 : ¬ c = '#' := fun he => h2 (he ▸ List.mem_cons_self c cs)
    rw [if_neg hc1, if_neg hc2] at h
    by_cases hv : validPathChar c = true
    · rw [if_pos hv] at h
      obtain ⟨pr0, hpr0, he⟩ := Option.map_eq_some'.mp h
      have := ih (fun hm => h1 (List.mem_cons_of_mem c hm))
        (fun hm => h2 (List.mem_cons_of_mem c hm)) hpr0
      rw [← he, this]
    · rw [if_neg hv] at h
      exact absurd h (by simp)

theorem scanPath_with_query {p : List Char} (t : List Char)
    (h1 : '?' ∉ p) (h2 : '#' ∉ p) :
    ∀ {pr}, scanPath (p ++ '?' :: t) = some pr →
      ∃ q, scanQuery t = some q ∧ pr = (p, some q) := by
  induction p with
  | nil =>
    intro pr h
    rw [List.nil_append, scanPath, if_pos rfl] at h
    obtain ⟨q, hq, he⟩ := Option.map_eq_some'.mp h
    exact ⟨q, hq, he.symm⟩
  | cons c cs ih =>
    intro pr h
    rw [List.cons_append, scanPath] at h
    have hc1 : ¬ c = '?' := fun he => h1 (he ▸ List.mem_cons_self c cs)
    have hc2 : ¬ c = '#' := fun he => h2 (he ▸ List.mem_cons_self c cs)
    rw [if_neg hc1, if_neg hc2] at h
    by_cases hv : validPathChar c = true
    · rw [if_pos hv] at h
      obtain ⟨pr0, hpr0, he⟩ := Option.map_eq_some'.mp h
      obtain ⟨q, hq, hpr⟩ := ih (fun hm => h1 (List.mem_cons_of_mem c hm))
        (fun hm => h2 (List.mem_cons_of_mem c hm)) hpr0
      refine ⟨q, hq, ?_⟩
      rw [← he, hpr]
    · rw [if_neg hv] at h
      exact absurd h (by simp)

theorem orderedInsert_lower {a : String} {l : List String}
    (ha : lowerStr a = a) (hl : ∀ b ∈ l, lowerStr b = b) :
    List.orderedInsert (fun x y : String => x ≤ y) a l =
      List.orderedInsert lowerLe a l := by
  induction l with
  | nil => rfl
  | cons b rest ih =>
    have hb : lowerStr b = b := hl b (List.mem_cons_self b rest)
    have hrest : ∀ x ∈ rest, lowerStr x = x :=
      fun x hx => hl x (List.mem_cons_of_mem b hx)
    have hiff : lowerLe a b ↔ a ≤ b := by rw [lowerLe, ha, hb]
    by_cases hab : a ≤ b
    · simp only [List.orderedInsert, if_pos hab, if_pos (hiff.mpr hab)]
    · simp only [List.orderedInsert, if_neg hab,
        if_neg (fun hc => hab (hiff.mp hc)), ih hrest]

theorem insertionSort_lower {l : List String} (hl : ∀ a ∈ l, lowerStr a = a) :
    List.insertionSort (fun x y : String => x ≤ y) l =
      List.insertionSort lowerLe l := by
  induction l with
  | nil => rfl
  | cons a rest ih =>
    have ha : lowerStr a = a := hl a (List.mem_cons_self a rest)
    have hrest : ∀ x ∈ rest, lowerStr x = x :=
      fun x hx => hl x (List.mem_cons_of_mem a hx)
    simp only [List.insertionSort]
    rw [ih hrest]
    refine orderedInsert_lower ha ?_
    intro b hb
    exact hrest b ((List.perm_insertionSort lowerLe rest).mem_iff.mp hb)

theorem insertionSort_perm_eq {l₁ l₂ : List String} (h : l₁.Perm l₂) :
    List.insertionSort (fun x y : String => x ≤ y) l₁ =
      List.insertionSort (fun x y : String => x ≤ y) l₂ := by
  haveI : IsTotal String (fun x y : String => x ≤ y) := ⟨fun a b => le_total a b⟩
  haveI : IsTrans String (fun x y : String => x ≤ y) := ⟨fun a b c => le_trans⟩
  haveI : IsAntisymm String (fun x y : String => x ≤ y) := ⟨fun a b => le_antisymm⟩
  exact List.eq_of_perm_of_sorted
    (((List.perm_insertionSort _ l₁).trans h).trans
      (List.perm_insertionSort _ l₂).symm)
    (List.sorted_insertionSort _ l₁) (List.sorted_insertionSort _ l₂)

theorem foldl_header_lines (v : String → String) :
    ∀ (keys : List String) (init : String),
      keys.foldl (fun acc k => acc ++ k ++ ": " ++ v k ++ "\n") init =
        init ++ concatLines (keys.map (fun k => k ++ ": " ++ v k ++ "\n")) := by
  intro keys
  induction keys with
  | nil => intro init; simp [concatLines, strAppend_empty]
  | cons k rest ih =>
    intro init
    rw [List.foldl_cons, ih, List.map_cons, concatLines]
    simp [String.append_assoc]

theorem serialize_eq_spec {r : Response}
    (h : ∀ p ∈ r.headers, lowerStr p.1 = p.1) :
    serialize_response r = serializeSpec r := by
  have hnames : ∀ a ∈ dedupKeys (r.headers.map Prod.fst), lowerStr a = a := by
    intro a ha
    obtain ⟨p, hp, rfl⟩ := List.mem_map.mp (dedupKeys_subset _ ha)
    exact h p hp
  have hsort : sortedHeaderNames r = specSortedNames r := by
    rw [sortedHeaderNames, specSortedNames]
    exact insertionSort_lower hnames
  rw [serialize_response, serializeSpec, headerBlock]
  simp only [foldl_header_lines, hsort]
  simp [strBytes_append, List.append_assoc]

theorem find?_filter_ne {rest : List (String × String)} {a k : String}
    (h : a ≠ k) :
    (rest.filter (fun q => q.1 ≠ a)).find? (fun p => p.1 == k) =
      rest.find? (fun p => p.1 == k) := by
  induction rest with
  | nil => rfl
  | cons q rs ih =>
    rw [List.filter_cons]
    by_cases hqa : q.1 = a
    · rw [if_neg (by simp [hqa]), ih,
        List.find?_cons_of_neg _ (by simp [hqa]; exact h)]
    · rw [if_pos (by simp [hqa])]
      by_cases hqk : q.1 = k
      · rw [List.find?_cons_of_pos _ (by simp [hqk]),
          List.find?_cons_of_pos _ (by simp [hqk])]
      · rw [List.find?_cons_of_neg _ (by simp [hqk]),
          List.find?_cons_of_neg _ (by simp [hqk]), ih]

theorem map_fst_firstPerName : ∀ hs : List (String × String),
    (firstPerName hs).map Prod.fst = dedupKeys (hs.map Prod.fst) := by
  intro hs
  induction hs using firstPerName.induct with
  | case1 => simp [firstPerName, dedupKeys]
  | case2 p rest ih =>
    rw [firstPerName, List.map_cons, List.map_cons, dedupKeys_cons_filter, ih,
      List.filter_map]
    rfl

theorem headerGet_firstPerName : ∀ (hs : List (String × String)) (k : String),
    headerGet (firstPerName hs) k = headerGet hs k := by
  intro hs
  induction hs using firstPerName.induct with
  | case1 => intro k; rw [firstPerName]
  | case2 p rest ih =>
    intro k
    rw [firstPerName, headerGet, headerGet]
    by_cases hpk : p.1 = k
    · rw [List.find?_cons_of_pos _ (by simp [hpk]),
        List.find?_cons_of_pos _ (by simp [hpk])]
    · rw [List.find?_cons_of_neg _ (by simp [hpk]),
        List.find?_cons_of_neg _ (by simp [hpk])]
      have := ih k
      rw [headerGet, headerGet] at this
      rw [this, find?_filter_ne hpk]

theorem serialize_headers_congr {r₁ r₂ : Response}
    (hst : r₁.status = r₂.status) (hb : r₁.body = r₂.body)
    (hkeys : (dedupKeys (r₁.headers.map Prod.fst)).Perm
      (dedupKeys (r₂.headers.map Prod.fst)))
    (hget : ∀ k, headerGet r₁.headers k = headerGet r₂.headers k) :
    serialize_response r₁ = serialize_response r₂ := by
  have hsort : sortedHeaderNames r₁ = sortedHeaderNames r₂ :=
    insertionSort_perm_eq hkeys
  have hfun : (fun acc k => acc ++ k ++ ": " ++ headerGet r₁.headers k ++ "\n")
      = (fun acc k => acc ++ k ++ ": " ++ headerGet r₂.headers k ++ "\n") := by
    funext acc k
    rw [hget k]
  rw [serialize_response, serialize_response, statusLine, statusLine, hst,
    hb, hsort, hfun]

theorem serialize_firstPerName (r : Response) :
    serialize_response r =
      serialize_response ⟨r.status, firstPerName r.headers, r.body⟩ := by
  refine serialize_headers_congr rfl rfl ?_ ?_
  · rw [show (Response.mk r.status (firstPerName r.headers) r.body).headers
      = firstPerName r.headers from rfl, map_fst_firstPerName, dedupKeys_idem]
  · intro k
    exact (headerGet_firstPerName r.headers k).symm

/-! Claim theorems. -/

theorem strBytes_length (s : String) : (strBytes s).length = s.utf8ByteSize := by
  cases s with
  | mk data =>
    rw [strBytes]
    show _ = String.utf8ByteSize.go data
    induction data with
    | nil => rfl
    | cons c cs ih =>
      rw [List.flatMap_cons, List.length_append, List.length_map,
        String.length_utf8EncodeChar, String.utf8ByteSize.go, ih]
      omega

/-- C8: when the handler returns a success/failure result, the generated
wrapper passes a success value's response through unchanged, and logs a
failure value (second component, the diagnostic stream) and replaces it
with the fixed `empty_response(500)` (status 500, no headers, empty
body); the serialized bytes on failure are the fixed 500 output,
independent of the error value, so the error never reaches the client. -/
theorem C8_result_handler_500 :
    ∀ (E : Type) (inner : Request → Except E Response) (r : Request),
      (∀ resp, inner r = .ok resp → wrap_result inner r = (resp, none)) ∧
      (∀ e, inner r = .error e →
        wrap_result inner r = (response500, some e) ∧
        response500.status = 500 ∧ response500.headers = [] ∧
        response500.body = [] ∧ empty_response 500 = some response500 ∧
        serialize_response (wrap_result inner r).1 =
          strBytes "Status: 500 Internal Server Error\n\n") ∧
      (∀ resp, err_to_500 (Except.ok resp : Except E Response) = resp) ∧
      (∀ e : E, err_to_500 (Except.error e : Except E Response) = response500) := by
  intro E inner r
  refine ⟨?_, ?_, fun resp => rfl, fun e => rfl⟩
  · intro resp h
    unfold wrap_result
    rw [h]
  · intro e h
    have hw : wrap_result inner r = (response500, some e) := by
      unfold wrap_result
      rw [h]
    refine ⟨hw, rfl, rfl, rfl, rfl, ?_⟩
    rw [hw]
    show serialize_response response500 =
      strBytes "Status: 500 Internal Server Error\n\n"
    decide

theorem C8_result_handler_500_witness :
    wrap_result (fun _ => (Except.error "boom" : Except String Response))
        ⟨"GET", ⟨"/", none⟩, .http11, [], none, []⟩ = (response500, some "boom") ∧
    serialize_response response500 =
      strBytes "Status: 500 Internal Server Error\n\n" ∧
    wrap_result (fun _ => (Except.ok ⟨404, [], []⟩ : Except String Response))
        ⟨"GET", ⟨"/", none⟩, .http11, [], none, []⟩ = (⟨404, [], []⟩, none) := by
  have h := C8_result_handler_500 String
    (fun _ => (Except.error "boom" : Except String Response))
    ⟨"GET", ⟨"/", none⟩, .http11, [], none, []⟩
  have he := h.2.1 "boom" rfl
  refine ⟨he.1, ?_, ?_⟩
  · have := he.2.2.2.2.2
    rw [he.1] at this
    exact this
  · exact (C8_result_handler_500 String _ _).1 _ rfl

/-- C7: the body reader reads exactly `content_length` bytes, where
`content_length` parses `CONTENT_LENGTH` as a non-negative integer and
uses 0 when the variable is absent or unparseable (so zero bytes are
read then); a stream shorter than the count is a fatal error with no
partial result, and `handle` dies with it. -/
theorem C7_content_length_body :
    (∀ env stdin, getVar env "CONTENT_LENGTH" = none →
        content_length env = 0 ∧ read_body env stdin = some []) ∧
    (∀ env stdin s, getVar env "CONTENT_LENGTH" = some s →
        parseUsize s = none →
        content_length env = 0 ∧ read_body env stdin = some []) ∧
    (∀ env stdin, content_length env ≤ stdin.length →
        read_body env stdin = some (stdin.take (content_length env)) ∧
        (stdin.take (content_length env)).length = content_length env) ∧
    (∀ env stdin, stdin.length < content_length env →
        read_body env stdin = none ∧
        ∀ func, handle func env stdin = none) := by
  refine ⟨?_, ?_, ?_, ?_⟩
  · intro env stdin h
    have h0 : content_length env = 0 := by rw [content_length, h]; rfl
    exact ⟨h0, by rw [read_body, h0]; simp [read_exact]⟩
  · intro env stdin s h hp
    have h0 : content_length env = 0 := by rw [content_length, h]; simp [hp]
    exact ⟨h0, by rw [read_body, h0]; simp [read_exact]⟩
  · intro env stdin h
    refine ⟨by rw [read_body, read_exact, if_pos h], ?_⟩
    rw [List.length_take]
    omega
  · intro env stdin h
    have hn : read_body env stdin = none := by
      rw [read_body, read_exact, if_neg (by omega)]
    exact ⟨hn, fun func => by rw [handle, hn]; rfl⟩

theorem C7_content_length_body_witness :
    read_body [] [1, 2, 3] = some [] ∧
    read_body [("CONTENT_LENGTH", "abc")] [1, 2, 3] = some [] ∧
    read_body [("CONTENT_LENGTH", "2")] [1, 2, 3] = some [1, 2] ∧
    read_body [("CONTENT_LENGTH", "5")] [1, 2, 3] = none := by
  refine ⟨(C7_content_length_body.1 [] [1, 2, 3] rfl).2,
    (C7_content_length_body.2.1 [("CONTENT_LENGTH", "abc")] [1, 2, 3] "abc"
      rfl rfl).2, ?_,
    (C7_content_length_body.2.2.2 [("CONTENT_LENGTH", "5")] [1, 2, 3]
      (by decide)).1⟩
  have h := (C7_content_length_body.2.2.1 [("CONTENT_LENGTH", "2")] [1, 2, 3]
    (by decide)).1
  rw [h]
  decide



theorem parseUri_cons_slash {cs : List Char} :
    parseUri ('/' :: cs) =
      (scanPath ('/' :: cs)).map
        (fun pr => ⟨⟨pr.1⟩, pr.2.map (fun q => (⟨q⟩ : String))⟩) := by
  rw [parseUri, if_pos rfl]

theorem parseUri_origin {sn pi qs : String}
    (hslash : strStarts sn "/" = true)
    (hq1 : '?' ∉ sn.data) (hq2 : '?' ∉ pi.data)
    (hh1 : '#' ∉ sn.data) (hh2 : '#' ∉ pi.data) (hh3 : '#' ∉ qs.data) :
    ∀ {u}, parseUri (requestUri sn pi qs).data = some u →
      u = ⟨sn ++ pi, if qs = "" then none else some qs⟩ := by
  intro u hu
  obtain ⟨t, ht⟩ : ∃ t, sn.data = '/' :: t := by
    rw [strStarts] at hslash
    obtain ⟨t, ht⟩ := List.isPrefixOf_iff_prefix.mp hslash
    exact ⟨t, ht.symm⟩
  have hnq : '?' ∉ sn.data ++ pi.data := by
    intro hmem
    rcases List.mem_append.mp hmem with h | h
    · exact hq1 h
    · exact hq2 h
  have hnh : '#' ∉ sn.data ++ pi.data := by
    intro hmem
    rcases List.mem_append.mp hmem with h | h
    · exact hh1 h
    · exact hh2 h
  by_cases hq : qs = ""
  · subst hq
    rw [requestUri, if_pos rfl, strAppend_empty, String.data_append, ht,
      List.cons_append, parseUri_cons_slash, ← List.cons_append, ← ht] at hu
    obtain ⟨pr, hpr, he⟩ := Option.map_eq_some'.mp hu
    rw [scanPath_no_query hnq hnh hpr] at he
    rw [← he, if_pos rfl]
    show UriParts.mk ⟨sn.data ++ pi.data⟩ none = _
    rw [← String.data_append sn pi, strEta (sn ++ pi)]
  · rw [requestUri, if_neg hq, String.data_append, String.data_append,
      String.data_append, show ("?" : String).data = ['?'] from rfl,
      List.singleton_append, ht, List.cons_append, List.cons_append,
      parseUri_cons_slash, ← List.cons_append, ← List.cons_append,
      ← ht] at hu
    obtain ⟨pr, hpr, he⟩ := Option.map_eq_some'.mp hu
    obtain ⟨q, hq0, hpr0⟩ := scanPath_with_query qs.data hnq hnh hpr
    rw [scanQuery_clean hh3 hq0] at hpr0
    rw [hpr0] at he
    rw [← he, if_neg hq]
    show UriParts.mk ⟨sn.data ++ pi.data⟩ (some ⟨qs.data⟩) = _
    rw [← String.data_append sn pi, strEta (sn ++ pi), strEta qs]

theorem parse_exEnv : parse_request exEnv [] = some exReq := by decide

/-- C1 (amended): for a mapping holding REQUEST_METHOD, SCRIPT_NAME,
PATH_INFO, QUERY_STRING and a supported SERVER_PROTOCOL, provided
SCRIPT_NAME begins with a slash, SCRIPT_NAME and PATH_INFO contain no
question mark, and none of SCRIPT_NAME, PATH_INFO, QUERY_STRING
contains a hash character, the built Request has the verbatim method,
path SCRIPT_NAME ++ PATH_INFO, and query equal to QUERY_STRING exactly
when QUERY_STRING is non-empty. -/
theorem C1_path_query (env : List (String × String)) (stdin : List Nat)
    (r : Request) (m sn pi qs pv : String)
    (hr : parse_request env stdin = some r)
    (hm : getVar env "REQUEST_METHOD" = some m)
    (hsn : getVar env "SCRIPT_NAME" = some sn)
    (hpi : getVar env "PATH_INFO" = some pi)
    (hqs : getVar env "QUERY_STRING" = some qs)
    (_hpv : getVar env "SERVER_PROTOCOL" = some pv)
    (_hsup : pv ∈ supportedProtocols)
    (hslash : strStarts sn "/" = true)
    (hq1 : '?' ∉ sn.data) (hq2 : '?' ∉ pi.data)
    (hh1 : '#' ∉ sn.data) (hh2 : '#' ∉ pi.data) (hh3 : '#' ∉ qs.data) :
    r.method = m ∧ reqPath r = sn ++ pi ∧
      reqQuery r = if qs = "" then none else some qs := by
  obtain ⟨m', sn', ver, u, hm', hsn', hv', hu, htok, hall, hr'⟩ :=
    parse_request_some hr
  rw [hm] at hm'
  rw [hsn] at hsn'
  injection hm' with hmm
  injection hsn' with hss
  subst hmm
  subst hss
  rw [hpi, hqs] at hu
  rw [hpi] at hr'
  have huq : u = ⟨sn ++ pi, if qs = "" then none else some qs⟩ :=
    parseUri_origin hslash hq1 hq2 hh1 hh2 hh3 hu
  subst hr'
  subst huq
  exact ⟨rfl, rfl, rfl⟩

theorem C1_path_query_witness :
    reqPath exReq = "/my/path/script" ++ "/my/path/info" ∧
    reqQuery exReq = some "foo=bar&baz=bop" ∧
    exReq.method = "GET" := by
  have h := C1_path_query exEnv [] exReq "GET" "/my/path/script"
    "/my/path/info" "foo=bar&baz=bop" "HTTP/1.0" parse_exEnv
    (by decide) (by decide) (by decide) (by decide) (by decide) (by decide)
    (by decide) (by decide) (by decide) (by decide) (by decide) (by decide)
  refine ⟨h.2.1, ?_, h.1⟩
  rw [h.2.2]
  decide

theorem C1_path_query_cex :
    (getVar c1Env "REQUEST_METHOD" = some "GET" ∧
     getVar c1Env "SCRIPT_NAME" = some "/a?b" ∧
     getVar c1Env "PATH_INFO" = some "" ∧
     getVar c1Env "QUERY_STRING" = some "" ∧
     getVar c1Env "SERVER_PROTOCOL" = some "HTTP/1.1" ∧
     "HTTP/1.1" ∈ supportedProtocols ∧
     (parse_request c1Env []).map reqPath = some "/a" ∧
     (parse_request c1Env []).map reqQuery = some (some "b") ∧
     ("/a" : String) ≠ "/a?b" ++ "") ∧
    (getVar c1AuthEnv "SCRIPT_NAME" = some "foo" ∧
     (parse_request c1AuthEnv []).map reqPath = some "" ∧
     ("" : String) ≠ "foo" ++ "") ∧
    (getVar c1FragEnv "QUERY_STRING" = some "b#c" ∧
     (parse_request c1FragEnv []).map reqQuery = some (some "b") ∧
     some ("b" : String) ≠ some "b#c") := by decide

theorem requestVersion_isSome {env : List (String × String)}
    (h : ∀ v, getVar env "SERVER_PROTOCOL" = some v → v ∈ supportedProtocols) :
    (requestVersion env).isSome = true := by
  rw [requestVersion]
  cases hsp : getVar env "SERVER_PROTOCOL" with
  | none => rfl
  | some v =>
    have hv := h v hsp
    simp only [supportedProtocols, List.mem_cons, List.mem_singleton] at hv
    rcases hv with rfl | rfl | rfl | rfl | h0
    · rfl
    · rfl
    · rfl
    · rfl
    · exact absurd h0 (List.not_mem_nil _)

theorem metaVarTable_names_valid :
    ∀ q ∈ metaVarTable, validToken (lowerStr q.2) = true := by decide

theorem requestHeaders_valid {env : List (String × String)}
    (hnames : ∀ p ∈ env, strStarts p.1 "HTTP_" = true →
      validToken (lowerStr (stripReplace p.1)) = true)
    (henv : ∀ p ∈ env, validValue p.2 = true) :
    (requestHeaders env).all
      (fun p => validToken p.1 && validValue p.2) = true := by
  rw [requestHeaders_eq, List.all_append]
  apply Bool.and_eq_true_iff.mpr
  constructor
  · rw [List.all_eq_true]
    intro x hx
    obtain ⟨p, hp, rfl⟩ := List.mem_map.mp hx
    have hmem := (List.filter_sublist _).subset hp
    have hps := List.of_mem_filter hp
    apply Bool.and_eq_true_iff.mpr
    exact ⟨hnames p hmem hps, validValue_trim (henv p hmem)⟩
  · rw [List.all_eq_true]
    intro x hx
    obtain ⟨q, hq, hq2⟩ := List.mem_filterMap.mp hx
    obtain ⟨w, hw1, hw2⟩ := Option.map_eq_some'.mp hq2
    obtain ⟨p, hp, hpw⟩ := getVar_value hw1
    apply Bool.and_eq_true_iff.mpr
    constructor
    · have h1 : x.1 = lowerStr q.2 := by rw [← hw2]
      rw [h1]
      exact metaVarTable_names_valid q hq
    · have h2 : x.2 = w := by rw [← hw2]
      rw [h2, ← hpw]
      exact henv p hp

theorem metaVarTable_targets_injective :
    ∀ q₁ ∈ metaVarTable, ∀ q₂ ∈ metaVarTable,
      lowerStr q₁.2 = lowerStr q₂.2 → q₁ = q₂ := by decide

theorem parse_request_headers {env : List (String × String)}
    {stdin : List Nat} {r : Request} (hr : parse_request env stdin = some r) :
    r.headers = httpHeaders env ++ xcgiList env := by
  obtain ⟨m, sn, ver, u, hm, hsn, hv, hu, htok, hall, hr'⟩ :=
    parse_request_some hr
  subst hr'
  show requestHeaders env = _
  rw [requestHeaders_eq]

/-- C5 (amended): for the sixteen meta-variables of the diagnostic table
(and no others) parse_request adds a header `X-CGI-<Meta-Var>` (name
stored lowercased by the header map) carrying the verbatim untrimmed
value exactly when the variable is present; when it is absent, and no
`HTTP_*` variable aliases that diagnostic name, no such header exists. -/
theorem C5_xcgi_headers :
    metaVarTable.length = 16 ∧
    (∀ env stdin r, parse_request env stdin = some r →
      (∀ mv target v, (mv, target) ∈ metaVarTable →
        getVar env mv = some v → (lowerStr target, v) ∈ r.headers) ∧
      (∀ mv target, (mv, target) ∈ metaVarTable →
        getVar env mv = none →
        (∀ p ∈ env, strStarts p.1 "HTTP_" = true →
          lowerStr (stripReplace p.1) ≠ lowerStr target) →
        ∀ v, (lowerStr target, v) ∉ r.headers) ∧
      ((∀ p ∈ env, strStarts p.1 "HTTP_" = true →
          strStarts (lowerStr (stripReplace p.1)) "x-cgi-" = false) →
        ∀ nm v, (nm, v) ∈ r.headers → strStarts nm "x-cgi-" = true →
          ∃ mv target, (mv, target) ∈ metaVarTable ∧ nm = lowerStr target ∧
            getVar env mv = some v)) := by
  refine ⟨rfl, ?_⟩
  intro env stdin r hr
  have hh := parse_request_headers hr
  refine ⟨?_, ?_, ?_⟩
  · intro mv target v hmem hv
    rw [hh]
    apply List.mem_append_right
    apply List.mem_filterMap.mpr
    exact ⟨(mv, target), hmem, by rw [hv]; rfl⟩
  · intro mv target hmem hnone hnoalias v hv
    rw [hh] at hv
    rcases List.mem_append.mp hv with hL | hR
    · obtain ⟨p, hp, hpe⟩ := List.mem_map.mp hL
      have hps := List.of_mem_filter hp
      have := hnoalias p ((List.filter_sublist _).subset hp) hps
      exact this (congrArg Prod.fst hpe)
    · obtain ⟨q, hq, hqe⟩ := List.mem_filterMap.mp hR
      obtain ⟨w, hw1, hw2⟩ := Option.map_eq_some'.mp hqe
      have hfst : lowerStr q.2 = lowerStr target := congrArg Prod.fst hw2
      have := metaVarTable_targets_injective q hq (mv, target) hmem hfst
      rw [this] at hw1
      rw [hw1] at hnone
      exact Option.noConfusion hnone
  · intro halias nm v hv hx
    rw [hh] at hv
    rcases List.mem_append.mp hv with hL | hR
    · obtain ⟨p, hp, hpe⟩ := List.mem_map.mp hL
      have hps := List.of_mem_filter hp
      have hfalse := halias p ((List.filter_sublist _).subset hp) hps
      have h1 : lowerStr (stripReplace p.1) = nm := congrArg Prod.fst hpe
      rw [h1] at hfalse
      rw [hfalse] at hx
      exact Bool.noConfusion hx
    · obtain ⟨q, hq, hqe⟩ := List.mem_filterMap.mp hR
      obtain ⟨w, hw1, hw2⟩ := Option.map_eq_some'.mp hqe
      have h1 : lowerStr q.2 = nm := congrArg Prod.fst hw2
      have h2 : w = v := congrArg Prod.snd hw2
      exact ⟨q.1, q.2, hq, h1.symm, by rw [hw1, h2]⟩

theorem C5_xcgi_headers_witness :
    (lowerStr "X-CGI-Path-Info", "/my/path/info") ∈ exReq.headers ∧
    ¬ (lowerStr "X-CGI-Auth-Type", "zzz") ∈ exReq.headers := by
  have h := (C5_xcgi_headers.2 exEnv [] exReq parse_exEnv)
  refine ⟨h.1 "PATH_INFO" "X-CGI-Path-Info" "/my/path/info" (by decide)
    (by decide), ?_⟩
  exact h.2.1 "AUTH_TYPE" "X-CGI-Auth-Type" (by decide) (by decide)
    (by decide) "zzz"

theorem C5_xcgi_headers_cex :
    (parse_request c5Env []).map
        (fun r => (r.headers.filter (fun p => strStarts p.1 "x-cgi-")).length)
      = some 16 ∧ (16 : Nat) ≠ 15 := by decide

end Cgi
